import Mathlib

/-!
Verification development for the OpenPomo client-side timer engine
(`src/client/src/hooks/useTimer.ts`) and its background ticker
(`src/client/public/timerWorker.js`).

The engine state and every operation below are shallow embeddings of the
corresponding TypeScript/JavaScript code: React state setters and refs
become explicit record updates, `Date.now()` becomes a `now : Nat`
parameter (epoch milliseconds), the `onComplete` callback becomes an
emitted notification list, and the `setTimeout` bodies (the 500 ms
auto-start and the 100 ms deferred completion on restore) become separate
step functions that the surrounding event system fires later.
-/

/-- Timer phase, from the `TimerMode` union type in `useTimer.ts`
(`'pomodoro' | 'shortBreak' | 'longBreak'`; the spec calls `pomodoro`
the focus phase). -/
inductive TimerMode where
  | pomodoro
  | shortBreak
  | longBreak
deriving DecidableEq, Repr

/-- Configured durations in seconds, from the `UseTimerProps` fields
`pomodoroTime`, `shortBreakTime`, `longBreakTime`. -/
structure Durations where
  pomodoroTime : Nat
  shortBreakTime : Nat
  longBreakTime : Nat
deriving DecidableEq, Repr

/-- Embedding of `getDuration` in `useTimer.ts`. -/
def getDuration (d : Durations) : TimerMode → Nat
  | .pomodoro => d.pomodoroTime
  | .shortBreak => d.shortBreakTime
  | .longBreak => d.longBreakTime

/-- In-memory engine state: the React state cells (`mode`, `timeLeft`,
`isRunning`, `pomodoroCount`) together with the refs `endTimeRef`,
`hasStartedRef` and the re-entrancy guard `completingRef`. `endTime` is
an absolute epoch-millisecond deadline, `none` when cleared. -/
structure EngineState where
  mode : TimerMode
  timeLeft : Nat
  isRunning : Bool
  pomodoroCount : Nat
  endTime : Option Nat
  hasStarted : Bool
  completing : Bool
deriving DecidableEq, Repr

/-- Embedding of the JavaScript expression
`Math.max(0, Math.ceil((endTime - now) / 1000))`, which the worker's
`checkTime`, the fallback interval, the visibility check and
`pauseTimer` all use verbatim. Arguments are integral epoch
milliseconds, so the ceiling division is exact Nat arithmetic. -/
def jsRemaining (endTime now : Nat) : Nat :=
  if endTime ≤ now then 0 else (endTime - now + 999) / 1000

/-- Statement of the spec's formula for the displayed remaining time:
`max(0, ceil((deadline - now)/1000))` with a true rational ceiling.
Used only to be compared against `jsRemaining`. -/
def specRemainingSecs (endTime now : Nat) : Int :=
  max 0 ⌈(((endTime : ℚ) - (now : ℚ)) / 1000 : ℚ)⌉

/-- Result of one engine step: the new state, the completion
notifications emitted (the `onComplete(mode)` calls, carrying the mode
that just finished), and, when the completion policy ran, the
`nextDuration` captured by the scheduled 500 ms auto-start timeout. -/
structure StepResult where
  state : EngineState
  notifs : List TimerMode
  scheduledAutoStart : Option Nat
deriving DecidableEq, Repr

/-- Embedding of `handleTimerComplete` in `useTimer.ts` (the synchronous
part, before its `setTimeout`): if the `completingRef` guard is set,
return immediately; otherwise set the guard, call `onComplete(mode)`,
compute the next mode (incrementing `pomodoroCount` after a pomodoro and
taking a long break every 4th one), set the next mode and its configured
duration, mark `hasStarted`, and schedule the auto-start with the
captured `nextDuration`. -/
def handleTimerComplete (d : Durations) (s : EngineState) : StepResult :=
  if s.completing then ⟨s, [], none⟩
  else
    let withNext :=
      if s.mode = .pomodoro then
        let newCount := s.pomodoroCount + 1
        let nextMode : TimerMode :=
          if newCount % 4 = 0 then .longBreak else .shortBreak
        ({ s with pomodoroCount := newCount, mode := nextMode } : EngineState)
      else ({ s with mode := .pomodoro } : EngineState)
    let nextDuration := getDuration d withNext.mode
    ⟨{ withNext with
        completing := true
        timeLeft := nextDuration
        hasStarted := true },
      [s.mode], some nextDuration⟩

/-- Commands the engine sends to its ticker drivers: `postMessage` of
`START{endTime}` / `STOP` / `CHECK` to the worker, or starting the
in-context fallback interval. -/
inductive TickerCmd where
  | workerStart (endTime : Nat)
  | workerStop
  | workerCheck
  | fallbackStart
deriving DecidableEq, Repr

/-- Embedding of the body of the 500 ms `setTimeout` inside
`handleTimerComplete`: read `Date.now()`, arm `endTimeRef` with
`now + nextDuration * 1000`, set `isRunning`, post `START` to the worker
if one exists (there is no fallback branch in this timeout), and clear
the `completingRef` guard last. -/
def autoStart (hasWorker : Bool) (nextDuration now : Nat) (s : EngineState) :
    EngineState × List TickerCmd :=
  ({ s with
      endTime := some (now + nextDuration * 1000)
      isRunning := true
      completing := false },
    if hasWorker then [.workerStart (now + nextDuration * 1000)] else [])

/-- Events the worker posts back to the engine (`TICK{remaining}` and
`COMPLETE`). -/
inductive WorkerEvent where
  | tick (remaining : Nat)
  | complete
deriving DecidableEq, Repr

/-- Embedding of the engine's `workerRef.current.onmessage` handler:
`TICK` stores the delivered remaining seconds, `COMPLETE` stops the
countdown (`setIsRunning(false)`, `endTimeRef.current = null`) and runs
`handleTimerComplete`. Note that the handler does not consult
`isRunning`. -/
def onWorkerMessage (d : Durations) (ev : WorkerEvent) (s : EngineState) : StepResult :=
  match ev with
  | .tick r => ⟨{ s with timeLeft := r }, [], none⟩
  | .complete => handleTimerComplete d { s with isRunning := false, endTime := none }

/-- Embedding of `startTimer`: no-op while running; otherwise arm
`endTimeRef` with `now + timeLeft * 1000`, mark started and running, and
instruct the active driver (worker `START`, else the fallback interval). -/
def startTimer (hasWorker : Bool) (now : Nat) (s : EngineState) :
    EngineState × List TickerCmd :=
  if s.isRunning then (s, [])
  else
    ({ s with
        endTime := some (now + s.timeLeft * 1000)
        hasStarted := true
        isRunning := true },
      if hasWorker then [.workerStart (now + s.timeLeft * 1000)] else [.fallbackStart])

/-- Embedding of `pauseTimer`: no-op while not running; otherwise
recompute `timeLeft` from the deadline one last time, stop running and
clear the deadline. -/
def pauseTimer (now : Nat) (s : EngineState) : EngineState :=
  if s.isRunning then
    let s1 :=
      match s.endTime with
      | some e => { s with timeLeft := jsRemaining e now }
      | none => s
    { s1 with isRunning := false, endTime := none }
  else s

/-- Embedding of `resetTimer`: stop, clear the deadline, clear
`hasStartedRef` and the `completingRef` guard, and restore the current
mode's configured duration. `pomodoroCount` is not touched. -/
def resetTimer (d : Durations) (s : EngineState) : EngineState :=
  { s with
      isRunning := false
      endTime := none
      hasStarted := false
      completing := false
      timeLeft := getDuration d s.mode }

/-- Embedding of `switchMode`: adopt the target mode with its configured
duration, clear `hasStartedRef`, stop running and clear the deadline. -/
def switchMode (d : Durations) (m : TimerMode) (s : EngineState) : EngineState :=
  { s with
      mode := m
      timeLeft := getDuration d m
      hasStarted := false
      isRunning := false
      endTime := none }

/-- Embedding of one firing of the fallback `setInterval` body in
`startFallbackInterval`: return early when there is no deadline or the
completion guard is set; otherwise recompute and display the remaining
seconds and, at zero, stop and run `handleTimerComplete`. -/
def fallbackTick (d : Durations) (now : Nat) (s : EngineState) : StepResult :=
  match s.endTime with
  | none => ⟨s, [], none⟩
  | some e =>
    if s.completing then ⟨s, [], none⟩
    else
      let r := jsRemaining e now
      let s1 := { s with timeLeft := r }
      if r ≤ 0 then
        handleTimerComplete d { s1 with isRunning := false, endTime := none }
      else ⟨s1, [], none⟩

/-- Embedding of the `visibilitychange` handler when the tab becomes
visible: only acts when running with an armed deadline; with a worker it
posts `CHECK` (engine state untouched), otherwise it recomputes the
remaining seconds in-context and completes at zero. -/
def visibilityCheck (d : Durations) (hasWorker : Bool) (now : Nat) (s : EngineState) :
    StepResult :=
  if s.isRunning then
    match s.endTime with
    | none => ⟨s, [], none⟩
    | some e =>
      if hasWorker then ⟨s, [], none⟩
      else
        let r := jsRemaining e now
        let s1 := { s with timeLeft := r }
        if r ≤ 0 then
          handleTimerComplete d { s1 with isRunning := false, endTime := none }
        else ⟨s1, [], none⟩
  else ⟨s, [], none⟩

/-- Embedding of the config-change effect
(`if (!isRunning && !hasStartedRef.current) setTimeLeft(getDuration(mode))`),
run when the configured durations props change. -/
def onConfigChange (newDur : Durations) (s : EngineState) : EngineState :=
  if !s.isRunning && !s.hasStarted then
    { s with timeLeft := getDuration newDur s.mode }
  else s

/-- Persisted `TimerState` snapshot as parsed from local storage by
`getInitialState`. -/
structure SavedState where
  mode : TimerMode
  timeLeft : Nat
  hasStarted : Bool
  pomodoroCount : Nat
  endTime : Option Nat
  isRunning : Bool
deriving DecidableEq, Repr

/-- Embedding of the hook's state initialization from a persisted
snapshot: `mode`, `timeLeft`, `pomodoroCount`, `endTimeRef` and
`hasStartedRef` come from the snapshot, but `isRunning` is created with
`useState(false)` and `completingRef` with `useRef(false)`. -/
def initFromSaved (saved : SavedState) : EngineState :=
  { mode := saved.mode
    timeLeft := saved.timeLeft
    isRunning := false
    pomodoroCount := saved.pomodoroCount
    endTime := saved.endTime
    hasStarted := saved.hasStarted
    completing := false }

/-- Embedding of the restore-on-mount effect. Starting from the
initialized state: when the snapshot was running with a deadline, either
resume (future deadline: keep it, recompute `timeLeft` with
`Math.ceil((endTime - now)/1000)`, set running) or handle a stale
deadline (`setTimeLeft(0)` and `setTimeout(() => handleTimerComplete(), 100)`).
The returned Bool records whether that 100 ms deferred completion was
scheduled. -/
def restoreOnLoad (saved : SavedState) (now : Nat) : EngineState × Bool :=
  let s := initFromSaved saved
  match saved.endTime, saved.isRunning with
  | some e, true =>
    if now < e then
      ({ s with
          endTime := some e
          timeLeft := (e - now + 999) / 1000
          isRunning := true },
        false)
    else ({ s with timeLeft := 0 }, true)
  | _, _ => (s, false)

/-- State of the background worker (`timerWorker.js`): whether its
`setInterval` is live and its copy of the deadline. -/
structure WorkerState where
  intervalLive : Bool
  endTime : Option Nat
deriving DecidableEq, Repr

/-- Embedding of the worker's `checkTime`: nothing without a deadline;
otherwise post `TICK` with `Math.max(0, Math.ceil((endTime - now)/1000))`
and, at zero, clear the interval and deadline and post `COMPLETE`. -/
def checkTime (now : Nat) (w : WorkerState) : WorkerState × List WorkerEvent :=
  match w.endTime with
  | none => (w, [])
  | some e =>
    let r := jsRemaining e now
    if r ≤ 0 then (⟨false, none⟩, [.tick r, .complete])
    else (w, [.tick r])

/-- Composition of a delivered `COMPLETE` with its own deferred 500 ms
auto-start (the normal uninterrupted completion of one phase), used to
trace the work/break cadence. -/
def completeAndAutoStart (d : Durations) (hasWorker : Bool) (now : Nat)
    (s : EngineState) : EngineState :=
  let r := onWorkerMessage d .complete s
  match r.scheduledAutoStart with
  | some nd => (autoStart hasWorker nd (now + 500) r.state).1
  | none => r.state

/-- Ticker-command list emitted by `startTimer` when it actually starts
(the branch bodies of `if (workerRef.current) ... else startFallbackInterval()`). -/
def startTimerCmds (hasWorker : Bool) (endTime : Nat) : List TickerCmd :=
  if hasWorker then [.workerStart endTime] else [.fallbackStart]

/-- Ticker-command list emitted by the auto-start timeout inside
`handleTimerComplete` (`if (workerRef.current) ...` with no else branch). -/
def autoStartCmds (hasWorker : Bool) (endTime : Nat) : List TickerCmd :=
  if hasWorker then [.workerStart endTime] else []

/-- One step of the engine under any of its event handlers, with the
configured durations fixed. Used to state reachability invariants. -/
inductive Step (d : Durations) : EngineState → EngineState → Prop where
  | start (hasWorker : Bool) (now : Nat) (s : EngineState) :
      Step d s (startTimer hasWorker now s).1
  | pause (now : Nat) (s : EngineState) :
      Step d s (pauseTimer now s)
  | reset (s : EngineState) :
      Step d s (resetTimer d s)
  | switch (m : TimerMode) (s : EngineState) :
      Step d s (switchMode d m s)
  | worker (ev : WorkerEvent) (s : EngineState) :
      Step d s (onWorkerMessage d ev s).state
  | fallback (now : Nat) (s : EngineState) :
      Step d s (fallbackTick d now s).state
  | vis (hasWorker : Bool) (now : Nat) (s : EngineState) :
      Step d s (visibilityCheck d hasWorker now s).state
  | auto (hasWorker : Bool) (nd now : Nat) (s : EngineState) :
      Step d s (autoStart hasWorker nd now s).1
  | deferredComplete (s : EngineState) :
      Step d s (handleTimerComplete d s).state
  | config (newDur : Durations) (s : EngineState) :
      Step d s (onConfigChange newDur s)

/-- Spec invariant `running == true ⇔ deadline != null`. -/
def RunIffDeadline (s : EngineState) : Prop :=
  s.isRunning = true ↔ s.endTime ≠ none

/-- Sample configuration (25 / 5 / 15 minutes in seconds). -/
def dur0 : Durations := ⟨1500, 300, 900⟩

/-- Fresh engine state: focus mode, configured duration, nothing
started. -/
def s0 : EngineState :=
  { mode := .pomodoro, timeLeft := 1500, isRunning := false, pomodoroCount := 0,
    endTime := none, hasStarted := false, completing := false }

/-- Running state used to instantiate theorems about an active
countdown: pomodoro, 5 s left, deadline at 6000 ms. -/
def sRun : EngineState :=
  { mode := .pomodoro, timeLeft := 5, isRunning := true, pomodoroCount := 2,
    endTime := some 6000, hasStarted := true, completing := false }

/-- Stale persisted snapshot: was running in focus mode with a deadline
one hour in the past relative to the reload time used below. -/
def savedStale : SavedState :=
  { mode := .pomodoro, timeLeft := 1500, hasStarted := true, pomodoroCount := 0,
    endTime := some 1000, isRunning := true }

theorem handleTimerComplete_isRunning (d : Durations) (s : EngineState) :
    (handleTimerComplete d s).state.isRunning = s.isRunning := by
  by_cases h : s.completing <;> by_cases hm : s.mode = .pomodoro <;>
    simp [handleTimerComplete, h, hm]

theorem handleTimerComplete_endTime (d : Durations) (s : EngineState) :
    (handleTimerComplete d s).state.endTime = s.endTime := by
  by_cases h : s.completing <;> by_cases hm : s.mode = .pomodoro <;>
    simp [handleTimerComplete, h, hm]

theorem handleTimerComplete_count (d : Durations) (s : EngineState) :
    (handleTimerComplete d s).state.pomodoroCount =
      if s.completing = false ∧ s.mode = .pomodoro then s.pomodoroCount + 1
      else s.pomodoroCount := by
  by_cases h : s.completing <;> by_cases hm : s.mode = .pomodoro <;>
    simp [handleTimerComplete, h, hm]

theorem handleTimerComplete_guarded (d : Durations) (s : EngineState)
    (h : s.completing = true) : handleTimerComplete d s = ⟨s, [], none⟩ := by
  simp [handleTimerComplete, h]

/-- C1: completing a phase advances the mode deterministically — focus
goes to a long break exactly when the incremented focus count is a
multiple of 4 and to a short break otherwise, and every break goes back
to focus; concretely, from a fresh state the four focus completions of
the first cycle are followed by shortBreak, shortBreak, shortBreak,
longBreak. -/
theorem mode_transition_on_complete (d : Durations) (s : EngineState)
    (hguard : s.completing = false) :
    ((handleTimerComplete d s).state.mode =
      if s.mode = .pomodoro then
        (if (s.pomodoroCount + 1) % 4 = 0 then TimerMode.longBreak
         else TimerMode.shortBreak)
      else TimerMode.pomodoro) ∧
    (let phase := fun s => completeAndAutoStart dur0 true 1000 s
     let t1 := phase s0
     let t2 := phase t1
     let t3 := phase t2
     let t4 := phase t3
     let t5 := phase t4
     let t6 := phase t5
     let t7 := phase t6
     t1.mode = TimerMode.shortBreak ∧ t1.pomodoroCount = 1 ∧
     t2.mode = TimerMode.pomodoro ∧
     t3.mode = TimerMode.shortBreak ∧ t3.pomodoroCount = 2 ∧
     t4.mode = TimerMode.pomodoro ∧
     t5.mode = TimerMode.shortBreak ∧ t5.pomodoroCount = 3 ∧
     t6.mode = TimerMode.pomodoro ∧
     t7.mode = TimerMode.longBreak ∧ t7.pomodoroCount = 4) := by
  refine ⟨?_, by decide⟩
  by_cases hm : s.mode = .pomodoro <;> simp [handleTimerComplete, hguard, hm]

/-- Witness for `mode_transition_on_complete` at the fresh state. -/
theorem mode_transition_on_complete_witness :
    (handleTimerComplete dur0 s0).state.mode =
      (if s0.mode = .pomodoro then
        (if (s0.pomodoroCount + 1) % 4 = 0 then TimerMode.longBreak
         else TimerMode.shortBreak)
      else TimerMode.pomodoro) :=
  (mode_transition_on_complete dur0 s0 rfl).1

/-- C2: delivering two `COMPLETE` events in immediate succession to a
running state whose deadline has been reached runs the completion policy
exactly once — one notification, at most one focus-count increment, and
the second delivery leaves the state unchanged and emits nothing; the
in-flight guard stays set until the deferred auto-start arms the next
deadline from which point it is clear. -/
theorem completion_guard_single_fire (d : Durations) (s : EngineState)
    (hasWorker : Bool) (e now nd : Nat)
    (_hrun : s.isRunning = true) (_hdl : s.endTime = some e)
    (_hreach : e ≤ now) (hguard : s.completing = false) :
    (onWorkerMessage d .complete s).notifs = [s.mode] ∧
    (onWorkerMessage d .complete s).state.pomodoroCount =
      (if s.mode = .pomodoro then s.pomodoroCount + 1 else s.pomodoroCount) ∧
    (onWorkerMessage d .complete (onWorkerMessage d .complete s).state).state =
      (onWorkerMessage d .complete s).state ∧
    (onWorkerMessage d .complete (onWorkerMessage d .complete s).state).notifs = [] ∧
    (onWorkerMessage d .complete s).state.completing = true ∧
    (autoStart hasWorker nd now (onWorkerMessage d .complete s).state).1.completing
      = false ∧
    (autoStart hasWorker nd now (onWorkerMessage d .complete s).state).1.endTime
      = some (now + nd * 1000) := by
  obtain ⟨m, tl, ir, pc, et, hs, cg⟩ := s
  simp only at hguard
  subst hguard
  cases m <;> simp [onWorkerMessage, handleTimerComplete, autoStart]

/-- Witness for `completion_guard_single_fire` at the running state
`sRun` with its deadline 6000 already crossed at time 7000. -/
theorem completion_guard_single_fire_witness :
    (onWorkerMessage dur0 .complete sRun).notifs = [sRun.mode] ∧
    (onWorkerMessage dur0 .complete sRun).state.pomodoroCount =
      (if sRun.mode = .pomodoro then sRun.pomodoroCount + 1
       else sRun.pomodoroCount) ∧
    (onWorkerMessage dur0 .complete
        (onWorkerMessage dur0 .complete sRun).state).state =
      (onWorkerMessage dur0 .complete sRun).state ∧
    (onWorkerMessage dur0 .complete
        (onWorkerMessage dur0 .complete sRun).state).notifs = [] ∧
    (onWorkerMessage dur0 .complete sRun).state.completing = true ∧
    (autoStart true 300 7000 (onWorkerMessage dur0 .complete sRun).state).1.completing
      = false ∧
    (autoStart true 300 7000 (onWorkerMessage dur0 .complete sRun).state).1.endTime
      = some (7000 + 300 * 1000) :=
  completion_guard_single_fire dur0 sRun true 6000 7000 300 rfl rfl
    (by decide) rfl

/-- C8: a configured-durations change resizes `timeLeft` to the new
duration of the current mode exactly when the timer is neither running
nor started, touching no other field; in every other case it changes
nothing at all. -/
theorem config_change_resizes_only_fresh (newDur : Durations) (s : EngineState) :
    (s.isRunning = false → s.hasStarted = false →
      onConfigChange newDur s = { s with timeLeft := getDuration newDur s.mode }) ∧
    (s.isRunning = true ∨ s.hasStarted = true → onConfigChange newDur s = s) := by
  constructor
  · intro h1 h2
    simp [onConfigChange, h1, h2]
  · intro h
    rcases h with h | h <;> simp [onConfigChange, h]

/-- Witness for `config_change_resizes_only_fresh`: shrinking the focus
duration from 1500 s to 600 s resizes a fresh focus state to 600 s and
leaves a running state untouched. -/
theorem config_change_resizes_only_fresh_witness :
    onConfigChange ⟨600, 300, 900⟩ s0 = { s0 with timeLeft := getDuration ⟨600, 300, 900⟩ s0.mode } ∧
    onConfigChange ⟨600, 300, 900⟩ sRun = sRun :=
  ⟨(config_change_resizes_only_fresh ⟨600, 300, 900⟩ s0).1 rfl rfl,
   (config_change_resizes_only_fresh ⟨600, 300, 900⟩ sRun).2 (Or.inl rfl)⟩

/-- C10: `pauseTimer` is idempotent — a second pause, arriving with the
timer already stopped, changes no field of the state. -/
theorem pause_idempotent (now1 now2 : Nat) (s : EngineState) :
    pauseTimer now2 (pauseTimer now1 s) = pauseTimer now1 s := by
  obtain ⟨m, tl, ir, pc, et, hs, cg⟩ := s
  cases ir <;> cases et <;> simp [pauseTimer]


/-- C4 (amended): the `running ⇔ deadline` invariant is preserved by
every in-session engine step, but restore-on-load breaks it — with a
persisted running snapshot whose deadline is stale, the restored state
has `running = false` while the stale deadline stays armed. -/
theorem run_iff_deadline_engine_steps (d : Durations) (s s' : EngineState)
    (saved : SavedState) (now e : Nat)
    (hstep : Step d s s') (hinv : RunIffDeadline s)
    (hrun : saved.isRunning = true) (he : saved.endTime = some e)
    (hstale : e ≤ now) :
    RunIffDeadline s' ∧
    (restoreOnLoad saved now).1.isRunning = false ∧
    (restoreOnLoad saved now).1.endTime = some e := by
  refine ⟨?_, ?_, ?_⟩
  · cases hstep with
    | start hw n =>
      by_cases h : s.isRunning = true
      · simpa [startTimer, h] using hinv
      · simp [startTimer, h, RunIffDeadline]
    | pause n =>
      by_cases h : s.isRunning = true
      · cases het : s.endTime <;> simp [pauseTimer, h, het, RunIffDeadline]
      · simpa [pauseTimer, h] using hinv
    | reset => simp [resetTimer, RunIffDeadline]
    | switch m => simp [switchMode, RunIffDeadline]
    | worker ev =>
      cases ev with
      | tick r => simpa [onWorkerMessage, RunIffDeadline] using hinv
      | complete =>
        simp [onWorkerMessage, RunIffDeadline, handleTimerComplete_isRunning,
          handleTimerComplete_endTime]
    | fallback n =>
      cases het : s.endTime with
      | none => simpa [fallbackTick, het] using hinv
      | some e2 =>
        by_cases hc : s.completing = true
        · simpa [fallbackTick, het, hc] using hinv
        · by_cases hr : jsRemaining e2 n = 0
          · simp [fallbackTick, het, hc, hr, RunIffDeadline,
              handleTimerComplete_isRunning, handleTimerComplete_endTime]
          · simpa [fallbackTick, het, hc, hr, RunIffDeadline] using hinv
    | vis hw n =>
      by_cases hR : s.isRunning = true
      · cases het : s.endTime with
        | none => simpa [visibilityCheck, hR, het] using hinv
        | some e2 =>
          cases hw with
          | true => simpa [visibilityCheck, hR, het] using hinv
          | false =>
            by_cases hr : jsRemaining e2 n = 0
            · simp [visibilityCheck, hR, het, hr, RunIffDeadline,
                handleTimerComplete_isRunning, handleTimerComplete_endTime]
            · simp [visibilityCheck, hR, het, hr, RunIffDeadline]
      · simpa [visibilityCheck, hR] using hinv
    | auto hw nd n => simp [autoStart, RunIffDeadline]
    | deferredComplete =>
      simpa [RunIffDeadline, handleTimerComplete_isRunning,
        handleTimerComplete_endTime] using hinv
    | config nd =>
      simp only [onConfigChange]
      split
      · simpa [RunIffDeadline] using hinv
      · exact hinv
  · obtain ⟨m, tl, hs, pc, et, ir⟩ := saved
    simp only at he hrun
    subst he hrun
    simp [restoreOnLoad, initFromSaved, Nat.not_lt.mpr hstale]
  · obtain ⟨m, tl, hs, pc, et, ir⟩ := saved
    simp only at he hrun
    subst he hrun
    simp [restoreOnLoad, initFromSaved, Nat.not_lt.mpr hstale]

/-- Witness for `run_iff_deadline_engine_steps`: a start step from the
fresh state preserves the invariant, and the stale snapshot restored one
hour late is left stopped with its old deadline armed. -/
theorem run_iff_deadline_engine_steps_witness :
    RunIffDeadline (startTimer true 1000 s0).1 ∧
    (restoreOnLoad savedStale 3601000).1.isRunning = false ∧
    (restoreOnLoad savedStale 3601000).1.endTime = some 1000 :=
  run_iff_deadline_engine_steps dur0 s0 (startTimer true 1000 s0).1 savedStale
    3601000 1000 (Step.start true 1000 s0)
    (by unfold RunIffDeadline; decide) rfl rfl (by decide)

/-- Counterexample to C4 as stated: after restore-on-load of a running
snapshot with a stale deadline, the state has `running = false` yet a
non-null deadline, so `running ⇔ deadline` fails in a state reached by a
public operation. -/
theorem run_iff_deadline_restore_cex :
    ¬ RunIffDeadline (restoreOnLoad savedStale 3601000).1 := by
  unfold RunIffDeadline
  decide

theorem handleTimerComplete_count_le (d : Durations) (s : EngineState) :
    s.pomodoroCount ≤ (handleTimerComplete d s).state.pomodoroCount := by
  rw [handleTimerComplete_count]
  split <;> omega

/-- C9: `pomodoroCount` is monotone under every engine step; an
unguarded focus completion increments it by exactly 1, an unguarded
break completion leaves it unchanged, and even the explicit full reset
does not decrement it. -/
theorem pomodoro_count_monotone (d : Durations) (s s' t : EngineState)
    (hstep : Step d s s') (hguard : t.completing = false) :
    s.pomodoroCount ≤ s'.pomodoroCount ∧
    (t.mode = .pomodoro →
      (handleTimerComplete d t).state.pomodoroCount = t.pomodoroCount + 1) ∧
    (t.mode ≠ .pomodoro →
      (handleTimerComplete d t).state.pomodoroCount = t.pomodoroCount) ∧
    (resetTimer d t).pomodoroCount = t.pomodoroCount := by
  refine ⟨?_, ?_, ?_, ?_⟩
  · cases hstep with
    | start hw n =>
      by_cases h : s.isRunning = true <;> simp [startTimer, h]
    | pause n =>
      by_cases h : s.isRunning = true
      · cases het : s.endTime <;> simp [pauseTimer, h, het]
      · simp [pauseTimer, h]
    | reset => simp [resetTimer]
    | switch m => simp [switchMode]
    | worker ev =>
      cases ev with
      | tick r => simp [onWorkerMessage]
      | complete =>
        exact handleTimerComplete_count_le d
          { s with isRunning := false, endTime := none }
    | fallback n =>
      cases het : s.endTime with
      | none => simp [fallbackTick, het]
      | some e2 =>
        by_cases hc : s.completing = true
        · simp [fallbackTick, het, hc]
        · by_cases hr : jsRemaining e2 n = 0
          · simp only [fallbackTick, het, hc, hr, Bool.false_eq_true,
              if_false, le_refl, if_true]
            exact handleTimerComplete_count_le d
              { s with
                  timeLeft := 0
                  isRunning := false
                  endTime := none
                  completing := false }
          · simp [fallbackTick, het, hc, hr]
    | vis hw n =>
      by_cases hR : s.isRunning = true
      · cases het : s.endTime with
        | none => simp [visibilityCheck, hR, het]
        | some e2 =>
          cases hw with
          | true => simp [visibilityCheck, hR, het]
          | false =>
            by_cases hr : jsRemaining e2 n = 0
            · simp only [visibilityCheck, hR, het, hr, Bool.false_eq_true,
                if_false, le_refl, if_true]
              exact handleTimerComplete_count_le d
                { s with timeLeft := 0, isRunning := false, endTime := none }
            · simp [visibilityCheck, hR, het, hr]
      · simp [visibilityCheck, hR]
    | auto hw nd n => simp [autoStart]
    | deferredComplete =>
      exact handleTimerComplete_count_le d s
    | config nd =>
      simp only [onConfigChange]
      split <;> simp
  · intro hm
    simp [handleTimerComplete_count, hguard, hm]
  · intro hm
    simp [handleTimerComplete_count, hguard, hm]
  · simp [resetTimer]

/-- Witness for `pomodoro_count_monotone`: a delivered `COMPLETE` on the
running focus state increments the count, and reset preserves it. -/
theorem pomodoro_count_monotone_witness :
    sRun.pomodoroCount ≤ (onWorkerMessage dur0 .complete sRun).state.pomodoroCount ∧
    (sRun.mode = .pomodoro →
      (handleTimerComplete dur0 sRun).state.pomodoroCount = sRun.pomodoroCount + 1) ∧
    (sRun.mode ≠ .pomodoro →
      (handleTimerComplete dur0 sRun).state.pomodoroCount = sRun.pomodoroCount) ∧
    (resetTimer dur0 sRun).pomodoroCount = sRun.pomodoroCount :=
  pomodoro_count_monotone dur0 sRun _ sRun (Step.worker .complete sRun) rfl

/-- Counterexample to C3 as stated: restoring the stale running focus
snapshot does not run the completion policy synchronously — immediately
after the restore effect the mode is still the persisted `pomodoro`, the
focus count is unchanged, no notification has been emitted (the restore
step emits none by construction), and a 100 ms deferred completion
callback has merely been scheduled. -/
theorem restore_stale_sync_cex :
    (restoreOnLoad savedStale 3601000).1.mode = TimerMode.pomodoro ∧
    (restoreOnLoad savedStale 3601000).1.pomodoroCount = 0 ∧
    (restoreOnLoad savedStale 3601000).1.timeLeft = 0 ∧
    (restoreOnLoad savedStale 3601000).2 = true := by
  decide

/-- C3 (amended): restoring a running snapshot whose deadline has passed
sets `remainingSeconds` to 0 and schedules the completion policy through
a 100 ms deferred callback rather than running it synchronously; when
that callback fires — still without any ticker tick — it emits exactly
one completion notification carrying the persisted mode and advances to
the next mode per the cadence rule, incrementing the focus count when
the persisted mode was focus. -/
theorem restore_stale_deferred (d : Durations) (saved : SavedState)
    (now e : Nat) (hrun : saved.isRunning = true)
    (he : saved.endTime = some e) (hstale : e ≤ now) :
    (restoreOnLoad saved now).1.timeLeft = 0 ∧
    (restoreOnLoad saved now).2 = true ∧
    (restoreOnLoad saved now).1.mode = saved.mode ∧
    (handleTimerComplete d (restoreOnLoad saved now).1).notifs = [saved.mode] ∧
    ((handleTimerComplete d (restoreOnLoad saved now).1).state.mode =
      if saved.mode = .pomodoro then
        (if (saved.pomodoroCount + 1) % 4 = 0 then TimerMode.longBreak
         else TimerMode.shortBreak)
      else TimerMode.pomodoro) ∧
    (saved.mode = .pomodoro →
      (handleTimerComplete d (restoreOnLoad saved now).1).state.pomodoroCount =
        saved.pomodoroCount + 1) := by
  obtain ⟨m, tl, hs, pc, et, ir⟩ := saved
  simp only at he hrun
  subst he hrun
  have hns : ¬ now < e := Nat.not_lt.mpr hstale
  refine ⟨?_, ?_, ?_, ?_, ?_, ?_⟩
  · simp [restoreOnLoad, initFromSaved, hns]
  · simp [restoreOnLoad, initFromSaved, hns]
  · simp [restoreOnLoad, initFromSaved, hns]
  · cases m <;> simp [restoreOnLoad, initFromSaved, hns, handleTimerComplete]
  · cases m <;> simp [restoreOnLoad, initFromSaved, hns, handleTimerComplete]
  · intro hm
    simp only at hm
    subst hm
    simp [restoreOnLoad, initFromSaved, hns, handleTimerComplete]

/-- Witness for `restore_stale_deferred` at the stale focus snapshot
reloaded one hour late. -/
theorem restore_stale_deferred_witness :
    (restoreOnLoad savedStale 3601000).1.timeLeft = 0 ∧
    (restoreOnLoad savedStale 3601000).2 = true ∧
    (restoreOnLoad savedStale 3601000).1.mode = savedStale.mode ∧
    (handleTimerComplete dur0 (restoreOnLoad savedStale 3601000).1).notifs =
      [savedStale.mode] ∧
    ((handleTimerComplete dur0 (restoreOnLoad savedStale 3601000).1).state.mode =
      if savedStale.mode = .pomodoro then
        (if (savedStale.pomodoroCount + 1) % 4 = 0 then TimerMode.longBreak
         else TimerMode.shortBreak)
      else TimerMode.pomodoro) ∧
    (savedStale.mode = .pomodoro →
      (handleTimerComplete dur0
          (restoreOnLoad savedStale 3601000).1).state.pomodoroCount =
        savedStale.pomodoroCount + 1) :=
  restore_stale_deferred dur0 savedStale 3601000 1000 rfl rfl (by decide)

/-- Stopped state with an in-flight countdown already abandoned (the
state right after a pause or `STOP`): not running, no deadline. -/
def sStopped : EngineState :=
  { mode := .pomodoro, timeLeft := 10, isRunning := false, pomodoroCount := 0,
    endTime := none, hasStarted := true, completing := false }

/-- Counterexample to C6 as stated: with `running = false`, a delivered
worker `TICK` still overwrites `timeLeft` (10 becomes 9), and a
delivered worker `COMPLETE` still runs the completion policy — the focus
count increments and a notification is emitted. -/
theorem stopped_event_not_ignored_cex :
    (onWorkerMessage dur0 (WorkerEvent.tick 9) sStopped).state.timeLeft = 9 ∧
    sStopped.timeLeft = 10 ∧
    (onWorkerMessage dur0 .complete sStopped).state.pomodoroCount = 1 ∧
    (onWorkerMessage dur0 .complete sStopped).notifs = [TimerMode.pomodoro] := by
  decide

/-- C6 (amended): after a stop, only the fallback driver's tick is
ignored — with no armed deadline it leaves the state untouched, emits
nothing and runs no completion policy. The worker-message handler does
not consult `running`: a late `TICK` still overwrites `timeLeft`, and a
late `COMPLETE` still emits a notification and runs the completion
policy whenever the in-flight guard is clear. -/
theorem stopped_event_handling (d : Durations) (r now : Nat) (s : EngineState)
    (hstop : s.isRunning = false) (hdl : s.endTime = none)
    (hguard : s.completing = false) :
    fallbackTick d now s = ⟨s, [], none⟩ ∧
    (onWorkerMessage d (.tick r) s).state = { s with timeLeft := r } ∧
    (onWorkerMessage d .complete s).notifs = [s.mode] := by
  refine ⟨?_, rfl, ?_⟩
  · simp [fallbackTick, hdl]
  · obtain ⟨m, tl, ir, pc, et, hs, cg⟩ := s
    simp only at hstop hdl hguard
    subst hstop hdl hguard
    cases m <;> simp [onWorkerMessage, handleTimerComplete]

/-- Witness for `stopped_event_handling` at the stopped state. -/
theorem stopped_event_handling_witness :
    fallbackTick dur0 2000 sStopped = ⟨sStopped, [], none⟩ ∧
    (onWorkerMessage dur0 (WorkerEvent.tick 7) sStopped).state =
      { sStopped with timeLeft := 7 } ∧
    (onWorkerMessage dur0 .complete sStopped).notifs = [sStopped.mode] :=
  stopped_event_handling dur0 7 2000 sStopped rfl rfl rfl

/-- Counterexample to C7 as stated: when the worker is unavailable (the
fallback driver is the active ticker), the auto-start timeout issues no
ticker command at all, while `startTimer` would restart the fallback
interval — so auto-start is not equivalent to `start()` in instructing
the active ticker driver. -/
theorem auto_start_fallback_cex :
    (autoStart false 300 10000 (onWorkerMessage dur0 .complete sRun).state).2 = [] ∧
    (startTimer false 10000 (onWorkerMessage dur0 .complete sRun).state).2 =
      [TickerCmd.fallbackStart] ∧
    (onWorkerMessage dur0 .complete sRun).state.isRunning = false := by
  decide

/-- C7 (amended): on a post-completion state (stopped, `timeLeft` equal
to the next duration) the deferred auto-start agrees with `startTimer`
on the armed deadline (`now + remainingSeconds * 1000`) and on setting
`running`, and when the worker driver is active both post the same
worker `START`; but when the worker is unavailable the auto-start issues
no ticker command, whereas `startTimer` would start the fallback
interval. -/
theorem auto_start_vs_start (hasWorker : Bool) (nd now : Nat) (s : EngineState)
    (hnr : s.isRunning = false) (htl : s.timeLeft = nd) :
    (autoStart hasWorker nd now s).1.endTime = (startTimer hasWorker now s).1.endTime ∧
    (autoStart hasWorker nd now s).1.endTime = some (now + nd * 1000) ∧
    (autoStart hasWorker nd now s).1.isRunning = true ∧
    (startTimer hasWorker now s).1.isRunning = true ∧
    (hasWorker = true →
      (autoStart hasWorker nd now s).2 = [TickerCmd.workerStart (now + nd * 1000)] ∧
      (startTimer hasWorker now s).2 = [TickerCmd.workerStart (now + nd * 1000)]) ∧
    (hasWorker = false →
      (autoStart hasWorker nd now s).2 = [] ∧
      (startTimer hasWorker now s).2 = [TickerCmd.fallbackStart]) := by
  subst htl
  cases hasWorker <;> simp [autoStart, startTimer, hnr]

/-- Witness for `auto_start_vs_start` on the state produced by
completing the running focus phase, with the worker driver active. -/
theorem auto_start_vs_start_witness :
    (autoStart true 300 10000 (onWorkerMessage dur0 .complete sRun).state).1.endTime =
      (startTimer true 10000 (onWorkerMessage dur0 .complete sRun).state).1.endTime ∧
    (autoStart true 300 10000 (onWorkerMessage dur0 .complete sRun).state).1.endTime =
      some (10000 + 300 * 1000) ∧
    (autoStart true 300 10000 (onWorkerMessage dur0 .complete sRun).state).1.isRunning
      = true ∧
    (startTimer true 10000 (onWorkerMessage dur0 .complete sRun).state).1.isRunning
      = true ∧
    (true = true →
      (autoStart true 300 10000 (onWorkerMessage dur0 .complete sRun).state).2 =
        [TickerCmd.workerStart (10000 + 300 * 1000)] ∧
      (startTimer true 10000 (onWorkerMessage dur0 .complete sRun).state).2 =
        [TickerCmd.workerStart (10000 + 300 * 1000)]) ∧
    (true = false →
      (autoStart true 300 10000 (onWorkerMessage dur0 .complete sRun).state).2 = [] ∧
      (startTimer true 10000 (onWorkerMessage dur0 .complete sRun).state).2 =
        [TickerCmd.fallbackStart]) :=
  auto_start_vs_start true 300 10000 (onWorkerMessage dur0 .complete sRun).state
    (by decide) (by decide)

theorem jsRemaining_eq_spec (e n : Nat) :
    (jsRemaining e n : Int) = specRemainingSecs e n := by
  unfold jsRemaining specRemainingSecs
  by_cases h : e ≤ n
  · rw [if_pos h]
    have h1 : ((e : ℚ) - n) / 1000 ≤ 0 := by
      apply div_nonpos_of_nonpos_of_nonneg
      · have h3 : (e : ℚ) ≤ n := by exact_mod_cast h
        linarith
      · norm_num
    have h2 : ⌈((e : ℚ) - n) / 1000⌉ ≤ 0 := by
      rw [Int.ceil_le]
      simpa using h1
    simp [max_eq_left h2]
  · rw [if_neg h]
    push_neg at h
    have hcast : ((e : ℚ) - n) = ((e - n : Nat) : ℚ) := by
      rw [Nat.cast_sub h.le]
    rw [hcast]
    have hle : e - n ≤ 1000 * ((e - n + 999) / 1000) := by omega
    have hlt : 1000 * ((e - n + 999) / 1000) < (e - n) + 1000 := by omega
    generalize hq : (e - n + 999) / 1000 = q at hle hlt ⊢
    generalize hm : e - n = m at hle hlt ⊢
    have hceil : ⌈((m : Nat) : ℚ) / 1000⌉ = (q : Int) := by
      rw [Int.ceil_eq_iff]
      constructor
      · rw [lt_div_iff₀ (by norm_num : (0:ℚ) < 1000)]
        have h2 : 1000 * (q : ℚ) < (m : ℚ) + 1000 := by exact_mod_cast hlt
        push_cast
        linarith
      · rw [div_le_iff₀ (by norm_num : (0:ℚ) < 1000)]
        have h2 : (m : ℚ) ≤ 1000 * (q : ℚ) := by exact_mod_cast hle
        push_cast
        linarith
    rw [hceil]
    have hq0 : (0 : Int) ≤ (q : Int) := by positivity
    simp [max_eq_right hq0]

theorem jsRemaining_after_start (now d ε : Nat) (hε : ε ≤ 1000) :
    jsRemaining (now + d * 1000) (now + ε) ≤ d ∧
    d ≤ jsRemaining (now + d * 1000) (now + ε) + 1 ∧
    (ε < 1000 → jsRemaining (now + d * 1000) (now + ε) = d) := by
  unfold jsRemaining
  split <;> omega

/-- C5: every recomputation of the displayed remaining seconds — the
worker's `checkTime` tick, the engine's handling of that tick, a
fallback-interval tick, a visibility check, and the final recomputation
in `pauseTimer` — produces `jsRemaining deadline now`, which equals the
spec's `max(0, ceil((deadline - now)/1000))` exactly and is never
negative; and after a start that arms `deadline = now + d*1000`, a tick
up to one second later reads a value in `{d, d-1}` (exactly `d` within
the first second). -/
theorem remaining_recompute (d : Durations) (s t : EngineState) (hw b : Bool)
    (e now now2 ε : Nat)
    (hrun : s.isRunning = true) (hdl : s.endTime = some e)
    (hguard : s.completing = false) (ht : t.isRunning = false)
    (hε : ε ≤ 1000) :
    (pauseTimer now s).timeLeft = jsRemaining e now ∧
    (checkTime now ⟨b, some e⟩).2.head? = some (.tick (jsRemaining e now)) ∧
    (onWorkerMessage d (.tick (jsRemaining e now)) s).state.timeLeft =
      jsRemaining e now ∧
    (0 < jsRemaining e now →
      (fallbackTick d now s).state.timeLeft = jsRemaining e now) ∧
    (0 < jsRemaining e now →
      (visibilityCheck d false now s).state.timeLeft = jsRemaining e now) ∧
    (jsRemaining e now : Int) = specRemainingSecs e now ∧
    (0 : Int) ≤ specRemainingSecs e now ∧
    (startTimer hw now2 t).1.endTime = some (now2 + t.timeLeft * 1000) ∧
    jsRemaining (now2 + t.timeLeft * 1000) (now2 + ε) ≤ t.timeLeft ∧
    t.timeLeft ≤ jsRemaining (now2 + t.timeLeft * 1000) (now2 + ε) + 1 ∧
    (ε < 1000 →
      jsRemaining (now2 + t.timeLeft * 1000) (now2 + ε) = t.timeLeft) := by
  refine ⟨?_, ?_, rfl, ?_, ?_, jsRemaining_eq_spec e now, le_max_left 0 _, ?_,
    (jsRemaining_after_start now2 t.timeLeft ε hε).1,
    (jsRemaining_after_start now2 t.timeLeft ε hε).2.1,
    (jsRemaining_after_start now2 t.timeLeft ε hε).2.2⟩
  · simp [pauseTimer, hrun, hdl]
  · simp only [checkTime]
    split <;> rfl
  · intro hpos
    simp [fallbackTick, hdl, hguard, Nat.not_le.mpr hpos]
  · intro hpos
    simp [visibilityCheck, hrun, hdl, Nat.not_le.mpr hpos]
  · simp [startTimer, ht]

/-- Witness for `remaining_recompute` with a deadline at 6000 ms read at
1000 ms (five seconds remain) and a fresh start at time 0 ticked 500 ms
later. -/
theorem remaining_recompute_witness :
    (pauseTimer 1000 sRun).timeLeft = jsRemaining 6000 1000 ∧
    (checkTime 1000 ⟨true, some 6000⟩).2.head? =
      some (.tick (jsRemaining 6000 1000)) ∧
    (onWorkerMessage dur0 (.tick (jsRemaining 6000 1000)) sRun).state.timeLeft =
      jsRemaining 6000 1000 ∧
    (0 < jsRemaining 6000 1000 →
      (fallbackTick dur0 1000 sRun).state.timeLeft = jsRemaining 6000 1000) ∧
    (0 < jsRemaining 6000 1000 →
      (visibilityCheck dur0 false 1000 sRun).state.timeLeft =
        jsRemaining 6000 1000) ∧
    (jsRemaining 6000 1000 : Int) = specRemainingSecs 6000 1000 ∧
    (0 : Int) ≤ specRemainingSecs 6000 1000 ∧
    (startTimer true 0 s0).1.endTime = some (0 + s0.timeLeft * 1000) ∧
    jsRemaining (0 + s0.timeLeft * 1000) (0 + 500) ≤ s0.timeLeft ∧
    s0.timeLeft ≤ jsRemaining (0 + s0.timeLeft * 1000) (0 + 500) + 1 ∧
    (500 < 1000 →
      jsRemaining (0 + s0.timeLeft * 1000) (0 + 500) = s0.timeLeft) :=
  remaining_recompute dur0 sRun s0 true true 6000 1000 0 500
    rfl rfl rfl rfl (by decide)

/-- Witness for `pause_idempotent` at the running state. -/
theorem pause_idempotent_witness :
    pauseTimer 2000 (pauseTimer 1000 sRun) = pauseTimer 1000 sRun :=
  pause_idempotent 1000 2000 sRun
